import Mathlib

/-!
Verification of the fixed-width-file node sources.

The repository contains two source files:
* `GenericFunctions.ts` with `getFields`, which turns the node field
  configuration into the list of `FieldSpec` specifications handed to the codec;
* `FixedWidthFile.node.ts` with `execute`, which computes the `trim` and `pad`
  options and invokes the external codec (`parse` / `stringify`).

The codec itself (schema validation, numeric string conversion) is not part of
the repository sources; where a claim depends on it, the relevant piece is
modelled from the specification and marked as such in its doc comment.
-/

/-- A JavaScript number as the casts observe it: either the not-a-number
sentinel or an exact numeric value. -/
inductive JsNum where
  | nan : JsNum
  | val (q : ℚ) : JsNum
deriving DecidableEq

/-- Tag for the cast closures attached by `getFields` in parse mode.  The
source attaches one of four literal arrow functions; the tag records which one,
and `applyCast` gives each its meaning. -/
inductive CastFn where
  | number : CastFn
  | integer : CastFn
  | float : CastFn
  | boolean : CastFn
deriving DecidableEq

/-- One raw entry of the node `fields.field` collection.  Every property of an
`IDataObject` entry may be absent, hence the `Option`s. -/
structure RawFieldCfg where
  property : Option String
  width : Option Int
  align : Option String
  dataType : Option String
deriving DecidableEq

/-- The `fields` parameter object: an `IDataObject` that may or may not carry a
`field` array. -/
structure FieldsConfig where
  field : Option (List RawFieldCfg)
deriving DecidableEq

/-- The `FieldSpec` record built by `getFields` (mirrors `@evologi/fixed-width`
`Field` as the source populates it: `property`, `width`, `cast`, `align`). -/
structure FieldSpec where
  property : Option String
  width : Option Int
  cast : Option CastFn
  align : Option String
deriving DecidableEq

/-- `((fieldConfig as IDataObject) || \x7b\x7d).field as IDataObject[] || []`:
a null/undefined config or a missing `field` array yields the empty list. -/
def rawFieldsOf (fieldConfig : Option FieldsConfig) : List RawFieldCfg :=
  ((fieldConfig.getD ⟨none⟩).field).getD []

/-- The body of the `rawFields.map` callback in `getFields`: `cast` is chosen
by `dataType` only when `operation === 'fromFile'`; `align` is the raw `align`
value only when `operation === 'toFile'`; `property` and `width` are copied
unchanged. -/
def buildField (operation : String) (rf : RawFieldCfg) : FieldSpec :=
  let cast : Option CastFn :=
    if operation = "fromFile" then
      match rf.dataType with
      | some "number" => some CastFn.number
      | some "integer" => some CastFn.integer
      | some "float" => some CastFn.float
      | some "boolean" => some CastFn.boolean
      | _ => none
    else none
  let align : Option String :=
    if operation = "toFile" then rf.align else none
  ⟨rf.property, rf.width, cast, align⟩

/-- `getFields` from `GenericFunctions.ts`: map every raw field entry to a
`FieldSpec`. -/
def getFields (operation : String) (fieldConfig : Option FieldsConfig) :
    List FieldSpec :=
  (rawFieldsOf fieldConfig).map (buildField operation)

/-- The `trim` value `execute` passes to the codec: `true`, `false`, or a side
keyword. -/
inductive TrimSetting where
  | toBool (b : Bool) : TrimSetting
  | left : TrimSetting
  | right : TrimSetting
deriving DecidableEq

/-- The `trim` computation in `execute`: start from `true`, then
`'both' → true`, `'none' → false`, `'left'`/`'right'` pass through, anything
else keeps the initial `true`. -/
def computeTrim (trim : Option String) : TrimSetting :=
  if trim = some "both" then TrimSetting.toBool true
  else if trim = some "none" then TrimSetting.toBool false
  else if trim = some "left" then TrimSetting.left
  else if trim = some "right" then TrimSetting.right
  else TrimSetting.toBool true

/-- The `pad` computation in `execute`:
`options.pad ? options.pad as string : ' '`.  A missing pad option and the
empty string are both falsy, so both yield a single space. -/
def computePad (pad : Option String) : String :=
  match pad with
  | none => " "
  | some s => if s = "" then " " else s

/-- Error kind of the schema validation described by the specification. -/
inductive SchemaError where
  | invalidWidth : SchemaError
  | missingProperty : SchemaError
deriving DecidableEq

/-- Modelled from the spec: `buildSchema` — the schema construction of the
codec, which is not among the repository sources — validates each width ≥ 0
and each property path non-empty, and fails with a `SchemaError` before any
record is processed. -/
def buildSchema : List FieldSpec → Except SchemaError (List FieldSpec)
  | [] => Except.ok []
  | f :: rest =>
    if f.property.getD "" = "" then Except.error SchemaError.missingProperty
    else if f.width.getD 0 < 0 then Except.error SchemaError.invalidWidth
    else
      match buildSchema rest with
      | Except.ok r => Except.ok (f :: r)
      | Except.error e => Except.error e

/-- Leading JavaScript whitespace removal. -/
def dropLeadingWs (cs : List Char) : List Char :=
  cs.dropWhile (fun c => c.isWhitespace)

/-- Whitespace removal on both ends, as the `Number` conversion performs. -/
def trimWsBoth (cs : List Char) : List Char :=
  ((dropLeadingWs cs).reverse.dropWhile (fun c => c.isWhitespace)).reverse

/-- Consume one optional sign character; `true` means negative. -/
def takeSign : List Char → Bool × List Char
  | '+' :: cs => (false, cs)
  | '-' :: cs => (true, cs)
  | cs => (false, cs)

/-- Split a maximal run of leading decimal digits from the rest. -/
def takeDigits : List Char → List Char × List Char
  | [] => ([], [])
  | c :: cs =>
    if c.isDigit then
      ((c :: (takeDigits cs).1), (takeDigits cs).2)
    else ([], c :: cs)

/-- Value of a run of decimal digits. -/
def digitsToNat (ds : List Char) : Nat :=
  ds.foldl (fun a c => a * 10 + (c.toNat - '0'.toNat)) 0

/-- Strip one leading decimal point, when present. -/
def afterPoint : List Char → Option (List Char)
  | [] => none
  | c :: r => if c = '.' then some r else none

/-- Mantissa of a decimal literal: digits, optionally followed by a point and
further digits, or a point followed by digits; at least one digit overall. -/
def parseMantissa (cs : List Char) : Option (ℚ × List Char) :=
  let ip := takeDigits cs
  match afterPoint ip.2 with
  | some r2 =>
    let fp := takeDigits r2
    if ip.1.isEmpty && fp.1.isEmpty then none
    else
      some ((digitsToNat ip.1 : ℚ) + (digitsToNat fp.1 : ℚ) / ((10 : ℚ) ^ fp.1.length),
        fp.2)
  | none => if ip.1.isEmpty then none else some ((digitsToNat ip.1 : ℚ), ip.2)

/-- Optional exponent part: `e`/`E`, an optional sign and digits.  When no
digit follows the marker, nothing is consumed. -/
def parseExponent (cs : List Char) : Int × List Char :=
  match cs with
  | [] => (0, [])
  | c :: r1 =>
    if c = 'e' ∨ c = 'E' then
      let sg := takeSign r1
      let ds := takeDigits sg.2
      if ds.1.isEmpty then (0, c :: r1)
      else ((if sg.1 then -(digitsToNat ds.1 : Int) else (digitsToNat ds.1 : Int)), ds.2)
    else (0, c :: r1)

/-- Longest decimal floating-point literal at the head of the character list:
optional sign, mantissa, optional exponent.  Returns its value and the rest. -/
def scanFloat (cs : List Char) : Option (ℚ × List Char) :=
  let sg := takeSign cs
  match parseMantissa sg.2 with
  | none => none
  | some (m, r2) =>
    let ex := parseExponent r2
    let v := m * (10 : ℚ) ^ ex.1
    some ((if sg.1 then -v else v), ex.2)

/-- Modelled from the spec: the `Number(v)` conversion used by the `number`
cast — parse the whole trimmed string as a floating-point value, the empty
string counting as zero; on failure produce the not-a-number sentinel.
(Restricted to decimal literals, the only form the spec describes.) -/
def jsNumber (s : String) : JsNum :=
  let cs := trimWsBoth s.data
  if cs.isEmpty then JsNum.val 0
  else
    match scanFloat cs with
    | some (v, []) => JsNum.val v
    | _ => JsNum.nan

/-- Modelled from the spec: the `parseInt(v, 10)` conversion used by the
`integer` cast — parse a leading base-10 integer; on failure produce the
not-a-number sentinel. -/
def jsParseInt (s : String) : JsNum :=
  let sg := takeSign (dropLeadingWs s.data)
  let ds := takeDigits sg.2
  if ds.1.isEmpty then JsNum.nan
  else JsNum.val (if sg.1 then -(digitsToNat ds.1 : ℚ) else (digitsToNat ds.1 : ℚ))

/-- Modelled from the spec: the `parseFloat(v)` conversion used by the `float`
cast — parse a leading floating-point literal; on failure produce the
not-a-number sentinel. -/
def jsParseFloat (s : String) : JsNum :=
  match scanFloat (dropLeadingWs s.data) with
  | none => JsNum.nan
  | some (v, _) => JsNum.val v

/-- The `Boolean(v)` conversion on a string: `false` exactly for the empty
string. -/
def jsBoolean (s : String) : Bool :=
  !s.isEmpty

/-- Result values the casts can produce. -/
inductive JsValue where
  | num (n : JsNum) : JsValue
  | boolVal (b : Bool) : JsValue
deriving DecidableEq

/-- Meaning of the four cast closures attached by `getFields`. -/
def applyCast : CastFn → String → JsValue
  | CastFn.number, v => JsValue.num (jsNumber v)
  | CastFn.integer, v => JsValue.num (jsParseInt v)
  | CastFn.float, v => JsValue.num (jsParseFloat v)
  | CastFn.boolean, v => JsValue.boolVal (jsBoolean v)

/-- After an optional sign the character list starts with a decimal digit. -/
def intHeadOK (cs : List Char) : Bool :=
  match (takeSign cs).2 with
  | c :: _ => c.isDigit
  | [] => false

/-- A string parses as a base-10 integer in the lenient `parseInt` sense:
after optional whitespace and an optional sign it starts with a decimal
digit. -/
def intParseOK (s : String) : Bool :=
  intHeadOK (dropLeadingWs s.data)

/-- After an optional sign the character list starts with a digit, or with a
point followed by a digit. -/
def floatHeadOK (cs : List Char) : Bool :=
  match (takeSign cs).2 with
  | [] => false
  | [c] => c.isDigit
  | c :: d :: _ => c.isDigit || (c == '.' && d.isDigit)

/-- A string parses as a floating-point value in the lenient `parseFloat`
sense: after optional whitespace and an optional sign it starts with a digit,
or with a point followed by a digit. -/
def floatParseOK (s : String) : Bool :=
  floatHeadOK (dropLeadingWs s.data)

/-- The tail after a mantissa is a well-formed (possibly absent) exponent that
reaches the end of the string. -/
def isExpTail : List Char → Bool
  | [] => true
  | c :: rest =>
    if c = 'e' ∨ c = 'E' then
      !(takeDigits (takeSign rest).2).1.isEmpty &&
        (takeDigits (takeSign rest).2).2.isEmpty
    else false

/-- The whole character list is a decimal floating-point literal. -/
def isFullFloatLit (cs : List Char) : Bool :=
  let ip := takeDigits (takeSign cs).2
  match afterPoint ip.2 with
  | some r =>
    let fp := takeDigits r
    (!(ip.1.isEmpty && fp.1.isEmpty)) && isExpTail fp.2
  | none => (!ip.1.isEmpty) && isExpTail ip.2

/-- A string parses under the `Number` conversion: empty after trimming
(value zero) or a full decimal floating-point literal. -/
def numberParseOK (s : String) : Bool :=
  (trimWsBoth s.data).isEmpty || isFullFloatLit (trimWsBoth s.data)

theorem buildField_property (op : String) (rf : RawFieldCfg) :
    (buildField op rf).property = rf.property := rfl

theorem buildField_width (op : String) (rf : RawFieldCfg) :
    (buildField op rf).width = rf.width := rfl

/-- Claim C10 (confirmed): for every operation string, `getFields` on a
null/undefined configuration, or on one without a `field` array, returns the
empty schema without raising an error. -/
theorem getFields_degenerate_c10 :
    ∀ operation : String,
      getFields operation none = [] ∧ getFields operation (some ⟨none⟩) = [] := by
  intro operation
  exact ⟨rfl, rfl⟩

/-- Claim C6 (confirmed): `getFields` returns exactly one field specification
per raw entry, in input order, with `property` and `width` copied from the
corresponding entry. -/
theorem getFields_shape_c6 :
    ∀ (operation : String) (cfg : Option FieldsConfig),
      (getFields operation cfg).map FieldSpec.property
          = (rawFieldsOf cfg).map RawFieldCfg.property ∧
      (getFields operation cfg).map FieldSpec.width
          = (rawFieldsOf cfg).map RawFieldCfg.width ∧
      (getFields operation cfg).length = (rawFieldsOf cfg).length := by
  intro operation cfg
  refine ⟨?_, ?_, by simp [getFields]⟩ <;>
    simp [getFields, List.map_map, Function.comp, buildField_property, buildField_width]

/-- Claim C5 (confirmed): every field specification built in parse mode has an
undefined alignment, and every field specification built in stringify mode has
an undefined cast: the two directions populate disjoint fields. -/
theorem disjoint_fields_c5 :
    (∀ (cfg : Option FieldsConfig) (f : FieldSpec),
        f ∈ getFields "fromFile" cfg → f.align = none) ∧
    (∀ (cfg : Option FieldsConfig) (f : FieldSpec),
        f ∈ getFields "toFile" cfg → f.cast = none) := by
  constructor <;>
  · intro cfg f hf
    simp only [getFields, List.mem_map] at hf
    obtain ⟨rf, _, rfl⟩ := hf
    simp [buildField]

theorem disjoint_fields_c5_witness :
    ((⟨some "x", some 4, none, none⟩ : FieldSpec) ∈
        getFields "fromFile" (some ⟨some [⟨some "x", some 4, none, none⟩]⟩)) ∧
    (⟨some "x", some 4, none, none⟩ : FieldSpec).align = none :=
  ⟨by decide, disjoint_fields_c5.1 (some ⟨some [⟨some "x", some 4, none, none⟩]⟩) _ (by decide)⟩

/-- Claim C7 (confirmed): schema construction is deterministic — two calls of
`getFields` on equal operation and configuration inputs return equal schemas.
Freedom from mutation is reflected by the embedding: the source computes the
result with a `map` over the raw entries and never assigns into its
arguments, so it is modelled as a pure function of its inputs. -/
theorem deterministic_c7 :
    ∀ (op1 op2 : String) (cfg1 cfg2 : Option FieldsConfig),
      op1 = op2 → cfg1 = cfg2 → getFields op1 cfg1 = getFields op2 cfg2 := by
  intro op1 op2 cfg1 cfg2 h1 h2
  rw [h1, h2]

theorem deterministic_c7_witness :
    ("fromFile" : String) = "fromFile" ∧
    getFields "fromFile" none = getFields "fromFile" none :=
  ⟨rfl, deterministic_c7 "fromFile" "fromFile" none none rfl rfl⟩

/-- Claim C8 (confirmed): the trim value handed to the codec maps `both` to
`true`, `none` to `false`, passes `left` and `right` through, and maps any
other or absent value to `true`. -/
theorem trim_option_c8 :
    computeTrim (some "both") = TrimSetting.toBool true ∧
    computeTrim (some "none") = TrimSetting.toBool false ∧
    computeTrim (some "left") = TrimSetting.left ∧
    computeTrim (some "right") = TrimSetting.right ∧
    computeTrim none = TrimSetting.toBool true ∧
    (∀ s : String, s ∉ (["both", "none", "left", "right"] : List String) →
      computeTrim (some s) = TrimSetting.toBool true) := by
  refine ⟨by decide, by decide, by decide, by decide, by decide, ?_⟩
  intro s hs
  simp only [List.mem_cons, List.not_mem_nil, or_false, not_or] at hs
  obtain ⟨h1, h2, h3, h4⟩ := hs
  simp [computeTrim, h1, h2, h3, h4]

theorem trim_option_c8_witness :
    ("weird" : String) ∉ (["both", "none", "left", "right"] : List String) ∧
    computeTrim (some "weird") = TrimSetting.toBool true :=
  ⟨by decide, trim_option_c8.2.2.2.2.2 "weird" (by decide)⟩

/-- Claim C9 (confirmed): the pad character handed to the codec is the
configured pad string when truthy, and a single space when the option is
absent or the empty string; an empty pad can never be selected. -/
theorem pad_option_c9 :
    computePad none = " " ∧
    computePad (some "") = " " ∧
    (∀ s : String, s ≠ "" → computePad (some s) = s) ∧
    (∀ p : Option String, computePad p ≠ "") := by
  refine ⟨by decide, by decide, ?_, ?_⟩
  · intro s hs
    simp [computePad, hs]
  · intro p
    cases p with
    | none => simp [computePad]
    | some s =>
      by_cases hs : s = "" <;> simp [computePad, hs]

theorem pad_option_c9_witness :
    ("#" : String) ≠ "" ∧ computePad (some "#") = "#" :=
  ⟨by decide, pad_option_c9.2.2.1 "#" (by decide)⟩

/-- Claim C2, counterexample: a stringify-mode field whose alignment is
unspecified is built with an undefined alignment, not with `left`. -/
theorem align_default_c2_counterexample :
    (getFields "toFile" (some ⟨some [⟨some "x", some 4, none, some "string"⟩]⟩)).map
        FieldSpec.align = [none] ∧
    ([none] : List (Option String)) ≠ [some "left"] := by
  constructor
  · decide
  · decide

/-- Claim C2 (amended): in stringify mode the built field specification
carries the configured alignment unchanged — in particular an undefined
alignment when none is configured (the `left` default is supplied by the node
UI parameter default and by the downstream codec, not by `getFields`); in
parse mode the cast is selected by `dataType`: `number`, `integer`, `float`
and `boolean` receive the corresponding cast, any other or absent `dataType`
receives no cast. -/
theorem align_passthrough_c2 :
    (∀ rf : RawFieldCfg, (buildField "toFile" rf).align = rf.align) ∧
    (∀ rf : RawFieldCfg, rf.dataType = some "number" →
        (buildField "fromFile" rf).cast = some CastFn.number) ∧
    (∀ rf : RawFieldCfg, rf.dataType = some "integer" →
        (buildField "fromFile" rf).cast = some CastFn.integer) ∧
    (∀ rf : RawFieldCfg, rf.dataType = some "float" →
        (buildField "fromFile" rf).cast = some CastFn.float) ∧
    (∀ rf : RawFieldCfg, rf.dataType = some "boolean" →
        (buildField "fromFile" rf).cast = some CastFn.boolean) ∧
    (∀ rf : RawFieldCfg,
        rf.dataType ∉ ([some "number", some "integer", some "float",
          some "boolean"] : List (Option String)) →
        (buildField "fromFile" rf).cast = none) := by
  refine ⟨?_, ?_, ?_, ?_, ?_, ?_⟩
  · intro rf
    simp [buildField]
  · intro rf h
    simp [buildField, h]
  · intro rf h
    simp [buildField, h]
  · intro rf h
    simp [buildField, h]
  · intro rf h
    simp [buildField, h]
  · intro rf h
    simp only [List.mem_cons, List.not_mem_nil, or_false, not_or] at h
    obtain ⟨h1, h2, h3, h4⟩ := h
    cases hdt : rf.dataType with
    | none => simp [buildField, hdt]
    | some s =>
      rw [hdt] at h1 h2 h3 h4
      have e1 : s ≠ "number" := fun he => h1 (by rw [he])
      have e2 : s ≠ "integer" := fun he => h2 (by rw [he])
      have e3 : s ≠ "float" := fun he => h3 (by rw [he])
      have e4 : s ≠ "boolean" := fun he => h4 (by rw [he])
      simp [buildField, hdt, e1, e2, e3, e4]

theorem align_passthrough_c2_witness :
    (buildField "toFile" ⟨some "x", some 4, none, none⟩).align = none ∧
    ((⟨some "x", some 4, none, some "integer"⟩ : RawFieldCfg).dataType
        = some "integer") ∧
    (buildField "fromFile" ⟨some "x", some 4, none, some "integer"⟩).cast
        = some CastFn.integer :=
  ⟨align_passthrough_c2.1 ⟨some "x", some 4, none, none⟩, rfl,
    align_passthrough_c2.2.2.1 ⟨some "x", some 4, none, some "integer"⟩ rfl⟩

/-- Claim C1, counterexample: `getFields` performs no validation — on a field
configuration with a negative width it returns a (non-empty) schema containing
that width instead of failing. -/
theorem schema_validation_c1_counterexample :
    getFields "fromFile" (some ⟨some [⟨some "x", some (-1), none, none⟩]⟩)
        = [⟨some "x", some (-1), none, none⟩] ∧
    getFields "fromFile" (some ⟨some [⟨some "x", some (-1), none, none⟩]⟩) ≠ [] := by
  constructor
  · decide
  · decide

theorem buildSchema_error_of_bad :
    ∀ (l : List FieldSpec) (f : FieldSpec), f ∈ l →
      (f.width.getD 0 < 0 ∨ f.property.getD "" = "") →
      ∃ e : SchemaError, buildSchema l = Except.error e := by
  intro l
  induction l with
  | nil =>
    intro f hf
    simp at hf
  | cons g t ih =>
    intro f hf hbad
    by_cases hp : g.property.getD "" = ""
    · exact ⟨SchemaError.missingProperty, by simp [buildSchema, hp]⟩
    · by_cases hw : g.width.getD 0 < 0
      · exact ⟨SchemaError.invalidWidth, by simp [buildSchema, hp, hw]⟩
      · have hft : f ∈ t := by
          rcases List.mem_cons.mp hf with rfl | h
          · rcases hbad with hb | hb
            · exact absurd hb hw
            · exact absurd hb hp
          · exact h
        obtain ⟨e, he⟩ := ih f hft hbad
        exact ⟨e, by simp [buildSchema, hp, hw, he]⟩

/-- Claim C1 (amended): `getFields` itself returns the schema unvalidated;
the validation the specification describes belongs to the codec schema
construction (`buildSchema`, modelled from the spec): on any built schema
containing a field with a negative width or an empty/missing property path it
fails with a `SchemaError` before any record is processed. -/
theorem schema_validation_c1 :
    ∀ (operation : String) (cfg : Option FieldsConfig) (f : FieldSpec),
      f ∈ getFields operation cfg →
      (f.width.getD 0 < 0 ∨ f.property.getD "" = "") →
      ∃ e : SchemaError, buildSchema (getFields operation cfg) = Except.error e := by
  intro operation cfg f hf hbad
  exact buildSchema_error_of_bad _ f hf hbad

theorem schema_validation_c1_witness :
    ((⟨some "x", some (-1), none, none⟩ : FieldSpec) ∈
        getFields "fromFile" (some ⟨some [⟨some "x", some (-1), none, none⟩]⟩)) ∧
    (((⟨some "x", some (-1), none, none⟩ : FieldSpec).width.getD 0 < 0) ∨
        ((⟨some "x", some (-1), none, none⟩ : FieldSpec).property.getD "" = "")) ∧
    ∃ e : SchemaError,
      buildSchema (getFields "fromFile"
        (some ⟨some [⟨some "x", some (-1), none, none⟩]⟩)) = Except.error e :=
  ⟨by decide, by decide,
    schema_validation_c1 "fromFile" (some ⟨some [⟨some "x", some (-1), none, none⟩]⟩)
      ⟨some "x", some (-1), none, none⟩ (by decide) (by decide)⟩

theorem takeDigits_not_digit (c : Char) (t : List Char) (h : c.isDigit = false) :
    takeDigits (c :: t) = ([], c :: t) := by
  simp [takeDigits, h]

theorem takeDigits_head (cs : List Char) (h : (takeDigits cs).1 ≠ []) :
    ∃ c t, cs = c :: t ∧ c.isDigit = true := by
  cases cs with
  | nil => simp [takeDigits] at h
  | cons c t =>
    by_cases hc : c.isDigit
    · exact ⟨c, t, rfl, hc⟩
    · rw [takeDigits_not_digit c t (by simpa using hc)] at h
      simp at h

theorem takeDigits_snd_of_nil (cs : List Char) (h : (takeDigits cs).1 = []) :
    (takeDigits cs).2 = cs := by
  cases cs with
  | nil => rfl
  | cons c t =>
    by_cases hc : c.isDigit
    · simp [takeDigits, hc] at h
    · simp [takeDigits, hc]

theorem afterPoint_some (cs r : List Char) (h : afterPoint cs = some r) :
    cs = '.' :: r := by
  cases cs with
  | nil => simp [afterPoint] at h
  | cons c t =>
    by_cases hc : c = '.'
    · subst hc
      simp only [afterPoint, if_true, Option.some.injEq, reduceIte] at h
      rw [h]
    · simp [afterPoint, hc] at h

theorem isExpTail_of_parseExponent (cs : List Char) (h : (parseExponent cs).2 = []) :
    isExpTail cs = true := by
  cases cs with
  | nil => rfl
  | cons c r1 =>
    by_cases he : c = 'e' ∨ c = 'E'
    · by_cases hds : (takeDigits (takeSign r1).2).1.isEmpty
      · simp [parseExponent, he, hds] at h
      · simp only [parseExponent, he, if_true, hds, if_false, Bool.false_eq_true,
          if_neg] at h
        simp [isExpTail, he, hds, h]
    · simp [parseExponent, he] at h

theorem isFullFloatLit_of_scanFloat (cs : List Char) (v : ℚ)
    (h : scanFloat cs = some (v, [])) : isFullFloatLit cs = true := by
  simp only [scanFloat] at h
  cases hm : parseMantissa (takeSign cs).2 with
  | none =>
    rw [hm] at h
    simp at h
  | some p =>
    obtain ⟨m, r2⟩ := p
    rw [hm] at h
    simp only [Option.some.injEq, Prod.mk.injEq] at h
    have hrest : (parseExponent r2).2 = [] := h.2
    simp only [parseMantissa] at hm
    cases hap : afterPoint (takeDigits (takeSign cs).2).2 with
    | some r =>
      rw [hap] at hm
      by_cases hee : (takeDigits (takeSign cs).2).1.isEmpty &&
          (takeDigits r).1.isEmpty
      · simp [hee] at hm
      · simp only [hee, Bool.false_eq_true, if_neg, if_false, Option.some.injEq,
          Prod.mk.injEq] at hm
        have hr2 : r2 = (takeDigits r).2 := by
          have := hm
          simp at this
          exact this.2.symm
        simp only [isFullFloatLit, hap]
        rw [hr2] at hrest
        simp [hee, isExpTail_of_parseExponent _ hrest]
    | none =>
      rw [hap] at hm
      by_cases hie : (takeDigits (takeSign cs).2).1.isEmpty
      · simp [hie] at hm
      · simp only [hie, Bool.false_eq_true, if_neg, if_false, Option.some.injEq,
          Prod.mk.injEq] at hm
        have hr2 : r2 = (takeDigits (takeSign cs).2).2 := by
          have := hm
          simp at this
          exact this.2.symm
        simp only [isFullFloatLit, hap]
        rw [hr2] at hrest
        simp [hie, isExpTail_of_parseExponent _ hrest]

theorem floatHeadOK_of_scanFloat (cs : List Char) (p : ℚ × List Char)
    (h : scanFloat cs = some p) : floatHeadOK cs = true := by
  simp only [scanFloat] at h
  cases hm : parseMantissa (takeSign cs).2 with
  | none =>
    rw [hm] at h
    simp at h
  | some q =>
    simp only [parseMantissa] at hm
    cases hap : afterPoint (takeDigits (takeSign cs).2).2 with
    | some r =>
      rw [hap] at hm
      by_cases hee : (takeDigits (takeSign cs).2).1.isEmpty &&
          (takeDigits r).1.isEmpty
      · simp [hee] at hm
      · simp only [Bool.and_eq_true, not_and_or] at hee
        by_cases hie : (takeDigits (takeSign cs).2).1 = []
        · have hsnd := takeDigits_snd_of_nil _ hie
          have hcs : (takeSign cs).2 = '.' :: r := by
            rw [← hsnd]
            exact afterPoint_some _ _ hap
          have hfp : (takeDigits r).1 ≠ [] := by
            rcases hee with hx | hx
            · exact absurd (by simpa using hie) hx
            · simpa using hx
          obtain ⟨d, t, rfl, hd⟩ := takeDigits_head r hfp
          simp [floatHeadOK, hcs, hd]
        · obtain ⟨c, t, hct, hc⟩ := takeDigits_head _ hie
          cases t with
          | nil => simp [floatHeadOK, hct, hc]
          | cons d t2 => simp [floatHeadOK, hct, hc]
    | none =>
      rw [hap] at hm
      by_cases hie : (takeDigits (takeSign cs).2).1.isEmpty
      · simp [hie] at hm
      · have hne : (takeDigits (takeSign cs).2).1 ≠ [] := by
          simpa using hie
        obtain ⟨c, t, hct, hc⟩ := takeDigits_head _ hne
        cases t with
        | nil => simp [floatHeadOK, hct, hc]
        | cons d t2 => simp [floatHeadOK, hct, hc]

theorem jsNumber_nan_of_not_ok (s : String) (h : numberParseOK s = false) :
    jsNumber s = JsNum.nan := by
  simp only [numberParseOK, Bool.or_eq_false_iff] at h
  obtain ⟨he, hf⟩ := h
  simp only [jsNumber, he, Bool.false_eq_true, if_false, if_neg]
  cases hsf : scanFloat (trimWsBoth s.data) with
  | none => simp [hsf]
  | some p =>
    obtain ⟨v, rest⟩ := p
    cases rest with
    | nil => exact absurd (isFullFloatLit_of_scanFloat _ _ hsf) (by simp [hf])
    | cons a t => simp [hsf]

theorem jsParseFloat_nan_of_not_ok (s : String) (h : floatParseOK s = false) :
    jsParseFloat s = JsNum.nan := by
  simp only [jsParseFloat]
  cases hsf : scanFloat (dropLeadingWs s.data) with
  | none => simp [hsf]
  | some p =>
    have := floatHeadOK_of_scanFloat _ p hsf
    simp only [floatParseOK] at h
    rw [h] at this
    simp at this

theorem jsParseInt_nan_of_not_ok (s : String) (h : intParseOK s = false) :
    jsParseInt s = JsNum.nan := by
  cases hsg : takeSign (dropLeadingWs s.data) with
  | mk sgn r1 =>
    simp only [intParseOK, intHeadOK, hsg] at h
    simp only [jsParseInt, hsg]
    cases r1 with
    | nil => simp [takeDigits]
    | cons c t =>
      simp only at h
      rw [takeDigits_not_digit c t h]
      simp

/-- Claim C3 (confirmed): the Boolean cast attached in parse mode returns
`true` exactly on a non-empty string — the codec hands it the already-trimmed
slice, so a non-empty string after trimming maps to `true` — and `false` on
the empty string. -/
theorem boolean_cast_c3 :
    (∀ rf : RawFieldCfg, rf.dataType = some "boolean" →
        (buildField "fromFile" rf).cast = some CastFn.boolean) ∧
    (∀ v : String, applyCast CastFn.boolean v = JsValue.boolVal true ↔ v ≠ "") ∧
    applyCast CastFn.boolean "" = JsValue.boolVal false := by
  refine ⟨?_, ?_, by decide⟩
  · intro rf h
    simp [buildField, h]
  · intro v
    simp only [applyCast, jsBoolean, JsValue.boolVal.injEq, Bool.not_eq_true',
      Bool.not_eq_true]
    rw [Bool.eq_false_iff]
    simp [String.isEmpty_iff]

theorem boolean_cast_c3_witness :
    ((⟨some "b", some 1, none, some "boolean"⟩ : RawFieldCfg).dataType
        = some "boolean") ∧
    (buildField "fromFile" ⟨some "b", some 1, none, some "boolean"⟩).cast
        = some CastFn.boolean ∧
    applyCast CastFn.boolean "x" = JsValue.boolVal true :=
  ⟨rfl, boolean_cast_c3.1 ⟨some "b", some 1, none, some "boolean"⟩ rfl,
    (boolean_cast_c3.2.1 "x").2 (by decide)⟩

/-- Claim C4 (confirmed): on every input string that does not parse as the
requested numeric type, the `number` cast (whole-string floating-point
conversion), the `float` cast (leading floating-point literal) and the
`integer` cast (leading base-10 integer) each produce the not-a-number
sentinel; being total functions they raise no error. -/
theorem numeric_cast_nan_c4 :
    (∀ s : String, numberParseOK s = false →
        applyCast CastFn.number s = JsValue.num JsNum.nan) ∧
    (∀ s : String, floatParseOK s = false →
        applyCast CastFn.float s = JsValue.num JsNum.nan) ∧
    (∀ s : String, intParseOK s = false →
        applyCast CastFn.integer s = JsValue.num JsNum.nan) := by
  refine ⟨?_, ?_, ?_⟩
  · intro s h
    simp [applyCast, jsNumber_nan_of_not_ok s h]
  · intro s h
    simp [applyCast, jsParseFloat_nan_of_not_ok s h]
  · intro s h
    simp [applyCast, jsParseInt_nan_of_not_ok s h]

theorem numeric_cast_nan_c4_witness :
    numberParseOK "abc" = false ∧
    applyCast CastFn.number "abc" = JsValue.num JsNum.nan ∧
    floatParseOK "abc" = false ∧
    applyCast CastFn.float "abc" = JsValue.num JsNum.nan ∧
    intParseOK "abc" = false ∧
    applyCast CastFn.integer "abc" = JsValue.num JsNum.nan :=
  ⟨by decide, numeric_cast_nan_c4.1 "abc" (by decide),
    by decide, numeric_cast_nan_c4.2.1 "abc" (by decide),
    by decide, numeric_cast_nan_c4.2.2 "abc" (by decide)⟩
